import Mathlib

/-!
Verification of the AgriVision planting core: the grid layout generator
(`app/services/planting/layout_generator.py`) and the genetic-algorithm
spacing optimizer (`app/services/planting/optimization.py`).

The layout generator performs exact-representable arithmetic on the grid
sweep, so it is embedded over `ℚ` and is fully executable.  The optimizer's
fitness uses `exp`, so it is embedded over `ℝ`; its pseudorandom sources
(`random.uniform`, `random.sample`, `random.random`, `random.randint`,
`np.random.normal`) are modelled as explicit choice streams, and theorems
quantify over all streams.
-/

namespace AgriVision

/-- Python's `round` applied to an integer-scaled value: round-half-to-even
(banker's rounding) to the nearest integer. -/
def roundHalfEven {α : Type} [LinearOrderedField α] [FloorRing α] (x : α) : ℤ :=
  if Int.fract x < 1/2 then ⌊x⌋
  else if 1/2 < Int.fract x then ⌊x⌋ + 1
  else if ⌊x⌋ % 2 = 0 then ⌊x⌋ else ⌊x⌋ + 1

/-- Python's `round(x, p)`: round `x` to `p` decimal places, half to even. -/
def pyRound {α : Type} [LinearOrderedField α] [FloorRing α] (p : ℕ) (x : α) : α :=
  (roundHalfEven (x * (10:α)^p) : α) / (10:α)^p

theorem floor_le_roundHalfEven {α : Type} [LinearOrderedField α] [FloorRing α] (x : α) :
    ⌊x⌋ ≤ roundHalfEven x := by
  unfold roundHalfEven
  split_ifs <;> omega

theorem roundHalfEven_le_floor_add_one {α : Type} [LinearOrderedField α] [FloorRing α] (x : α) :
    roundHalfEven x ≤ ⌊x⌋ + 1 := by
  unfold roundHalfEven
  split_ifs <;> omega

theorem roundHalfEven_intCast {α : Type} [LinearOrderedField α] [FloorRing α] (m : ℤ) :
    roundHalfEven (m : α) = m := by
  unfold roundHalfEven
  rw [Int.fract_intCast, Int.floor_intCast]
  norm_num

theorem le_roundHalfEven_of_le {α : Type} [LinearOrderedField α] [FloorRing α]
    {m : ℤ} {x : α} (h : (m : α) ≤ x) : m ≤ roundHalfEven x := by
  have h1 : m ≤ ⌊x⌋ := Int.le_floor.mpr h
  exact le_trans h1 (floor_le_roundHalfEven x)

theorem roundHalfEven_le_of_le {α : Type} [LinearOrderedField α] [FloorRing α]
    {m : ℤ} {x : α} (h : x ≤ (m : α)) : roundHalfEven x ≤ m := by
  rcases eq_or_lt_of_le h with heq | hlt
  · rw [heq, roundHalfEven_intCast]
  · have h1 : ⌊x⌋ < m := Int.floor_lt.mpr hlt
    exact le_trans (roundHalfEven_le_floor_add_one x) (by omega)

theorem le_pyRound {α : Type} [LinearOrderedField α] [FloorRing α] (p : ℕ)
    {m : ℤ} {x : α} (h : (m : α) / 10 ^ p ≤ x) : (m : α) / 10 ^ p ≤ pyRound p x := by
  have hp : (0 : α) < 10 ^ p := by positivity
  have h1 : (m : α) ≤ x * 10 ^ p := (div_le_iff₀ hp).mp h
  have h2 : m ≤ roundHalfEven (x * 10 ^ p) := le_roundHalfEven_of_le h1
  unfold pyRound
  exact (div_le_div_iff_of_pos_right hp).mpr (by exact_mod_cast h2)

theorem pyRound_le {α : Type} [LinearOrderedField α] [FloorRing α] (p : ℕ)
    {m : ℤ} {x : α} (h : x ≤ (m : α) / 10 ^ p) : pyRound p x ≤ (m : α) / 10 ^ p := by
  have hp : (0 : α) < 10 ^ p := by positivity
  have h1 : x * 10 ^ p ≤ (m : α) := (le_div_iff₀ hp).mp h
  have h2 : roundHalfEven (x * 10 ^ p) ≤ m := roundHalfEven_le_of_le h1
  unfold pyRound
  exact (div_le_div_iff_of_pos_right hp).mpr (by exact_mod_cast h2)

/-! ## Layout generator (`layout_generator.py`), embedded over `ℚ` -/

/-- One retained planting point, as built inside `generate_grid`:
`{"id": ..., "x": round(x, 2), "y": round(y, 2), "row": int(...), "col": int(...)}`. -/
structure Plant where
  id : ℕ
  x : ℚ
  y : ℚ
  row : ℤ
  col : ℤ
deriving DecidableEq, Repr

/-- The `grid_parameters` dictionary of the returned layout.  On the success
path `bounds`, `polygon_area_m2` and `grid_points_generated` are present and
`error` is absent; on the exception path only `error` is present. -/
structure GridParams where
  row_spacing_cm : ℚ
  plant_spacing_cm : ℚ
  bounds : Option (ℚ × ℚ × ℚ × ℚ)
  polygon_area_m2 : Option ℚ
  grid_points_generated : Option ℕ
  error : Option String
deriving DecidableEq, Repr

/-- The dictionary returned by `generate_grid`. -/
structure LayoutResult where
  total_plants : ℕ
  plants : List Plant
  grid_parameters : GridParams
  coverage_percentage : ℚ
deriving DecidableEq, Repr

/-- Python `int()` on a rational: truncation toward zero. -/
def pyInt (q : ℚ) : ℤ := q.num / q.den

/-- `_is_point_in_polygon`: ray casting.  For each edge `(i, (i+1) % n)`, the
point toggles `inside` when the edge straddles the horizontal line through the
point and the point lies strictly left of the edge's crossing of that line. -/
def isPointInPolygon (p : ℚ × ℚ) (polygon : List (ℚ × ℚ)) : Bool :=
  let n := polygon.length
  (List.range n).foldl
    (fun inside i =>
      let j := (i + 1) % n
      let vi := polygon.getD i (0, 0)
      let vj := polygon.getD j (0, 0)
      if ((vi.2 > p.2) ≠ (vj.2 > p.2)) ∧
          p.1 < (vj.1 - vi.1) * (p.2 - vi.2) / (vj.2 - vi.2) + vi.1
      then !inside else inside)
    false

/-- `_calculate_polygon_area`: Shoelace formula, absolute value halved;
fewer than 3 coordinates yield 0. -/
def calculatePolygonArea (coordinates : List (ℚ × ℚ)) : ℚ :=
  if coordinates.length < 3 then 0
  else
    let n := coordinates.length
    |((List.range n).foldl
      (fun area i =>
        let j := (i + 1) % n
        let ci := coordinates.getD i (0, 0)
        let cj := coordinates.getD j (0, 0)
        area + ci.1 * cj.2 - cj.1 * ci.2) 0)| / 2

/-- The values visited by `x = minv; while x <= maxv: ...; x += step`
under exact arithmetic, for `step > 0` and `minv ≤ maxv`:
`minv + k * step` for `k = 0, ..., ⌊(maxv - minv) / step⌋`. -/
def gridSteps (minv maxv step : ℚ) : List ℚ :=
  (List.range (⌊(maxv - minv) / step⌋.toNat + 1)).map
    (fun (k : ℕ) => minv + (k : ℚ) * step)

/-- The grid points retained by the double sweep of `generate_grid`, in sweep
order (outer loop over `x`, inner loop over `y`), before plant dictionaries
are built. -/
def insideGridPoints (polygon : List (ℚ × ℚ))
    (minX maxX minY maxY rowM plantM : ℚ) : List (ℚ × ℚ) :=
  (gridSteps minX maxX rowM).flatMap
    (fun x => ((gridSteps minY maxY plantM).map (fun y => (x, y))).filter
      (fun p => isPointInPolygon p polygon))

/-- `min(x_coords)` as computed by `generate_grid`. -/
def minXOf (boundary : List (ℚ × ℚ)) : ℚ :=
  let xs := boundary.map Prod.fst
  xs.foldl min (xs.headD 0)

/-- `max(x_coords)` as computed by `generate_grid`. -/
def maxXOf (boundary : List (ℚ × ℚ)) : ℚ :=
  let xs := boundary.map Prod.fst
  xs.foldl max (xs.headD 0)

/-- `min(y_coords)` as computed by `generate_grid`. -/
def minYOf (boundary : List (ℚ × ℚ)) : ℚ :=
  let ys := boundary.map Prod.snd
  ys.foldl min (ys.headD 0)

/-- `max(y_coords)` as computed by `generate_grid`. -/
def maxYOf (boundary : List (ℚ × ℚ)) : ℚ :=
  let ys := boundary.map Prod.snd
  ys.foldl max (ys.headD 0)

/-- The plant dictionary built for the `k`-th retained grid point (0-based). -/
def mkPlant (minX minY rowM plantM : ℚ) (k : ℕ) (p : ℚ × ℚ) : Plant :=
  { id := k + 1
    x := pyRound 2 p.1
    y := pyRound 2 p.2
    row := pyInt ((p.1 - minX) / rowM)
    col := pyInt ((p.2 - minY) / plantM) }

/-- The full (untruncated) plant list of `generate_grid`, in sweep order. -/
def layoutPlants (boundary : List (ℚ × ℚ)) (rowCm plantCm : ℚ) : List Plant :=
  (insideGridPoints boundary (minXOf boundary) (maxXOf boundary)
      (minYOf boundary) (maxYOf boundary) (rowCm / 100) (plantCm / 100)).mapIdx
    (mkPlant (minXOf boundary) (minYOf boundary) (rowCm / 100) (plantCm / 100))

/-- The result returned from the `except` branch of `generate_grid`. -/
def errorLayoutResult (rowCm plantCm : ℚ) (msg : String) : LayoutResult :=
  { total_plants := 0
    plants := []
    grid_parameters :=
      { row_spacing_cm := rowCm
        plant_spacing_cm := plantCm
        bounds := none
        polygon_area_m2 := none
        grid_points_generated := none
        error := some msg }
    coverage_percentage := 0 }

/-- `LayoutGenerator.generate_grid`.  Boundaries with fewer than 3 coordinates
raise `ValueError("Invalid boundary coordinates")`, which the broad `except`
turns into the zero-plant error result.  (For spacing ≤ 0 the Python `while`
loops never terminate; all theorems below quantify over positive spacing.) -/
def generate_grid (boundary : List (ℚ × ℚ)) (rowCm plantCm : ℚ) : LayoutResult :=
  if boundary.length < 3 then
    errorLayoutResult rowCm plantCm "Invalid boundary coordinates"
  else
    let plants := layoutPlants boundary rowCm plantCm
    let polygonArea := calculatePolygonArea boundary
    let plantArea := (plants.length : ℚ) * (rowCm / 100 * (plantCm / 100))
    let coverage := if polygonArea > 0 then min 100 (plantArea / polygonArea * 100) else 0
    { total_plants := plants.length
      plants := plants.take 1000
      grid_parameters :=
        { row_spacing_cm := rowCm
          plant_spacing_cm := plantCm
          bounds := some (minXOf boundary, maxXOf boundary, minYOf boundary, maxYOf boundary)
          polygon_area_m2 := some (pyRound 2 polygonArea)
          grid_points_generated := some plants.length
          error := none }
      coverage_percentage := pyRound 2 coverage }

/-! ### Projections of `generate_grid` on the two control paths -/

theorem generate_grid_of_lt (boundary : List (ℚ × ℚ)) (rowCm plantCm : ℚ)
    (h : boundary.length < 3) :
    generate_grid boundary rowCm plantCm =
      errorLayoutResult rowCm plantCm "Invalid boundary coordinates" := by
  unfold generate_grid
  rw [if_pos h]

theorem generate_grid_of_le (boundary : List (ℚ × ℚ)) (rowCm plantCm : ℚ)
    (h : 3 ≤ boundary.length) :
    generate_grid boundary rowCm plantCm =
      { total_plants := (layoutPlants boundary rowCm plantCm).length
        plants := (layoutPlants boundary rowCm plantCm).take 1000
        grid_parameters :=
          { row_spacing_cm := rowCm
            plant_spacing_cm := plantCm
            bounds := some (minXOf boundary, maxXOf boundary, minYOf boundary, maxYOf boundary)
            polygon_area_m2 := some (pyRound 2 (calculatePolygonArea boundary))
            grid_points_generated := some (layoutPlants boundary rowCm plantCm).length
            error := none }
        coverage_percentage := pyRound 2
          (if calculatePolygonArea boundary > 0 then
            min 100 (((layoutPlants boundary rowCm plantCm).length : ℚ) *
              (rowCm / 100 * (plantCm / 100)) / calculatePolygonArea boundary * 100)
          else 0) } := by
  unfold generate_grid
  rw [if_neg (by omega)]

/-- C7: `generate_grid` never raises: on the representable internal-error input
(a boundary with fewer than 3 vertices, which makes the code raise
`ValueError` inside its `try`), it returns a `LayoutResult` with
`total_plants = 0`, an empty plant list, `coverage_percentage = 0`, and an
error descriptor string inside `grid_parameters`. -/
theorem generate_grid_error_swallowed (boundary : List (ℚ × ℚ)) (rowCm plantCm : ℚ)
    (h : boundary.length < 3) :
    (generate_grid boundary rowCm plantCm).total_plants = 0 ∧
    (generate_grid boundary rowCm plantCm).plants = [] ∧
    (generate_grid boundary rowCm plantCm).coverage_percentage = 0 ∧
    (generate_grid boundary rowCm plantCm).grid_parameters.error =
      some "Invalid boundary coordinates" := by
  rw [generate_grid_of_lt boundary rowCm plantCm h]
  exact ⟨rfl, rfl, rfl, rfl⟩

/-- Witness for C7 at the empty boundary. -/
theorem generate_grid_error_swallowed_witness :
    ([] : List (ℚ × ℚ)).length < 3 ∧
    ((generate_grid [] 100 100).total_plants = 0 ∧
      (generate_grid [] 100 100).plants = [] ∧
      (generate_grid [] 100 100).coverage_percentage = 0 ∧
      (generate_grid [] 100 100).grid_parameters.error =
        some "Invalid boundary coordinates") :=
  ⟨by norm_num, generate_grid_error_swallowed [] 100 100 (by norm_num)⟩

/-- C6: on valid boundaries the returned `plants` list is the first 1000
retained positions in sweep order while `total_plants` reports the full
untruncated count; when at most 1000 points are retained, all of them are
returned. -/
theorem generate_grid_truncation (boundary : List (ℚ × ℚ)) (rowCm plantCm : ℚ)
    (h : 3 ≤ boundary.length) :
    (generate_grid boundary rowCm plantCm).total_plants =
        (layoutPlants boundary rowCm plantCm).length ∧
    (generate_grid boundary rowCm plantCm).plants =
        (layoutPlants boundary rowCm plantCm).take 1000 ∧
    (1000 < (layoutPlants boundary rowCm plantCm).length →
      (generate_grid boundary rowCm plantCm).plants.length = 1000) ∧
    ((layoutPlants boundary rowCm plantCm).length ≤ 1000 →
      (generate_grid boundary rowCm plantCm).plants =
        layoutPlants boundary rowCm plantCm) := by
  rw [generate_grid_of_le boundary rowCm plantCm h]
  refine ⟨rfl, rfl, fun hl => ?_, fun hl => ?_⟩
  · simp only [List.length_take]
    omega
  · exact List.take_of_length_le hl

/-- Witness for C6 on a 3m × 3m square with 1m spacing. -/
theorem generate_grid_truncation_witness :
    3 ≤ ([(0, 0), (3, 0), (3, 3), (0, 3)] : List (ℚ × ℚ)).length ∧
    ((generate_grid [(0, 0), (3, 0), (3, 3), (0, 3)] 100 100).total_plants =
        (layoutPlants [(0, 0), (3, 0), (3, 3), (0, 3)] 100 100).length ∧
      (generate_grid [(0, 0), (3, 0), (3, 3), (0, 3)] 100 100).plants =
        (layoutPlants [(0, 0), (3, 0), (3, 3), (0, 3)] 100 100).take 1000 ∧
      (1000 < (layoutPlants [(0, 0), (3, 0), (3, 3), (0, 3)] 100 100).length →
        (generate_grid [(0, 0), (3, 0), (3, 3), (0, 3)] 100 100).plants.length = 1000) ∧
      ((layoutPlants [(0, 0), (3, 0), (3, 3), (0, 3)] 100 100).length ≤ 1000 →
        (generate_grid [(0, 0), (3, 0), (3, 3), (0, 3)] 100 100).plants =
          layoutPlants [(0, 0), (3, 0), (3, 3), (0, 3)] 100 100)) :=
  ⟨by norm_num, generate_grid_truncation _ 100 100 (by norm_num)⟩

/-! ### Containment of returned plants (C1) -/

/-- A thin vertical strip between `x = 0.004` and `x = 0.006`: every grid
point of its sweep passes the containment test at its generating coordinate,
but the stored coordinates are rounded to two decimals (to `x = 0.0`), which
lies outside the strip. -/
def roundTripCex : List (ℚ × ℚ) := [(1/250, 0), (3/500, 0), (3/500, 10), (1/250, 10)]

/-- C1 counterexample: for the thin-strip boundary, the generator's own
ray-casting test applied to the stored (rounded) coordinates of the returned
plants fails. -/
theorem roundtrip_containment_cex :
    ((generate_grid roundTripCex 100 100).plants.all
      (fun p => isPointInPolygon (p.x, p.y) roundTripCex)) = false := by decide!

/-- C1 amended: every returned plant was built from a grid point that passes
the generator's ray-casting containment test; its stored coordinates are that
grid point's coordinates rounded to two decimals (so containment holds at the
generating coordinate, not necessarily at the stored rounded one). -/
theorem plants_from_contained_gridpoints (boundary : List (ℚ × ℚ))
    (rowCm plantCm : ℚ) (pl : Plant)
    (hmem : pl ∈ (generate_grid boundary rowCm plantCm).plants) :
    ∃ q : ℚ × ℚ, isPointInPolygon q boundary = true ∧
      pl.x = pyRound 2 q.1 ∧ pl.y = pyRound 2 q.2 := by
  by_cases h3 : boundary.length < 3
  · rw [generate_grid_of_lt _ _ _ h3] at hmem
    simp [errorLayoutResult] at hmem
  · rw [generate_grid_of_le _ _ _ (by omega)] at hmem
    have h1 : pl ∈ layoutPlants boundary rowCm plantCm := List.mem_of_mem_take hmem
    unfold layoutPlants at h1
    rw [List.mem_iff_getElem] at h1
    obtain ⟨i, hi, hget⟩ := h1
    rw [List.getElem_mapIdx] at hget
    have hilen : i < (insideGridPoints boundary (minXOf boundary) (maxXOf boundary)
        (minYOf boundary) (maxYOf boundary) (rowCm / 100) (plantCm / 100)).length := by
      simpa using hi
    refine ⟨(insideGridPoints boundary (minXOf boundary) (maxXOf boundary)
        (minYOf boundary) (maxYOf boundary) (rowCm / 100) (plantCm / 100))[i], ?_, ?_, ?_⟩
    · have hm := List.getElem_mem hilen
      unfold insideGridPoints at hm
      obtain ⟨x, _, hmf⟩ := List.mem_flatMap.mp hm
      exact (List.mem_filter.mp hmf).2
    · rw [← hget]
      rfl
    · rw [← hget]
      rfl

/-- Witness for C1's amended theorem: the first plant returned for a 3m × 3m
square with 1m spacing. -/
theorem plants_from_contained_gridpoints_witness :
    (⟨1, 0, 0, 0, 0⟩ : Plant) ∈
      (generate_grid [(0, 0), (3, 0), (3, 3), (0, 3)] 100 100).plants ∧
    ∃ q : ℚ × ℚ, isPointInPolygon q [(0, 0), (3, 0), (3, 3), (0, 3)] = true ∧
      (⟨1, 0, 0, 0, 0⟩ : Plant).x = pyRound 2 q.1 ∧
      (⟨1, 0, 0, 0, 0⟩ : Plant).y = pyRound 2 q.2 :=
  ⟨by decide!, plants_from_contained_gridpoints _ 100 100 _ (by decide!)⟩

/-! ### Coverage percentage (C2) -/

/-- A left-pointing triangle of area 4.5 m² whose sweep retains exactly one
grid point, making the exact coverage 200/9 %, which is not representable in
two decimals. -/
def coverageCex : List (ℚ × ℚ) := [(0, 5), (9/10, 0), (9/10, 10)]

/-- C2 counterexample: the returned `coverage_percentage` is the two-decimal
rounding 22.22 of the exact formula value 200/9, hence not equal to the
formula value itself. -/
theorem coverage_formula_cex :
    (generate_grid coverageCex 100 100).coverage_percentage ≠
      min 100 (100 * ((layoutPlants coverageCex 100 100).length : ℚ) *
        (100 / 100) * (100 / 100) / calculatePolygonArea coverageCex) := by decide!

/-- C2 amended: on valid inputs the returned coverage percentage equals the
two-decimal rounding of `min(100, 100 * count * row_m * plant_m / area)` when
the polygon area is positive (0 otherwise), and always lies in [0, 100]. -/
theorem coverage_percentage_spec (boundary : List (ℚ × ℚ)) (rowCm plantCm : ℚ)
    (h3 : 3 ≤ boundary.length) (hr : 0 < rowCm) (hp : 0 < plantCm) :
    (generate_grid boundary rowCm plantCm).coverage_percentage =
      pyRound 2 (if 0 < calculatePolygonArea boundary then
          min 100 (100 * ((layoutPlants boundary rowCm plantCm).length : ℚ) *
            (rowCm / 100) * (plantCm / 100) / calculatePolygonArea boundary)
        else 0) ∧
    0 ≤ (generate_grid boundary rowCm plantCm).coverage_percentage ∧
    (generate_grid boundary rowCm plantCm).coverage_percentage ≤ 100 := by
  rw [generate_grid_of_le _ _ _ h3]
  set cnt := ((layoutPlants boundary rowCm plantCm).length : ℚ) with hcnt
  have hcnt0 : 0 ≤ cnt := Nat.cast_nonneg _
  set A := calculatePolygonArea boundary with hA
  have harg : (if A > 0 then min 100 (cnt * (rowCm / 100 * (plantCm / 100)) / A * 100) else 0) =
      (if 0 < A then min 100 (100 * cnt * (rowCm / 100) * (plantCm / 100) / A) else 0) := by
    split_ifs with h
    · congr 1
      ring
    · rfl
  have hbounds : 0 ≤ (if 0 < A then min 100 (100 * cnt * (rowCm / 100) * (plantCm / 100) / A)
        else 0) ∧
      (if 0 < A then min 100 (100 * cnt * (rowCm / 100) * (plantCm / 100) / A) else 0) ≤ 100 := by
    split_ifs with h
    · constructor
      · refine le_min (by norm_num) ?_
        positivity
      · exact min_le_left _ _
    · norm_num
  refine ⟨by simp only [harg], ?_, ?_⟩
  · simp only [harg]
    have h0 : ((0 : ℤ) : ℚ) / 10 ^ 2 = 0 := by norm_num
    calc (0 : ℚ) = ((0 : ℤ) : ℚ) / 10 ^ 2 := by norm_num
      _ ≤ _ := le_pyRound 2 (by rw [h0]; exact hbounds.1)
  · simp only [harg]
    have h100 : ((10000 : ℤ) : ℚ) / 10 ^ 2 = 100 := by norm_num
    calc pyRound 2 _ ≤ ((10000 : ℤ) : ℚ) / 10 ^ 2 :=
        pyRound_le 2 (by rw [h100]; exact hbounds.2)
      _ = 100 := h100

/-- Witness for C2's amended theorem on a 2m × 2m square with 1m spacing. -/
theorem coverage_percentage_spec_witness :
    3 ≤ ([(0, 0), (2, 0), (2, 2), (0, 2)] : List (ℚ × ℚ)).length ∧ (0 : ℚ) < 100 ∧
    ((generate_grid [(0, 0), (2, 0), (2, 2), (0, 2)] 100 100).coverage_percentage =
        pyRound 2 (if 0 < calculatePolygonArea [(0, 0), (2, 0), (2, 2), (0, 2)] then
            min 100 (100 * ((layoutPlants [(0, 0), (2, 0), (2, 2), (0, 2)] 100 100).length : ℚ) *
              (100 / 100) * (100 / 100) / calculatePolygonArea [(0, 0), (2, 0), (2, 2), (0, 2)])
          else 0) ∧
      0 ≤ (generate_grid [(0, 0), (2, 0), (2, 2), (0, 2)] 100 100).coverage_percentage ∧
      (generate_grid [(0, 0), (2, 0), (2, 2), (0, 2)] 100 100).coverage_percentage ≤ 100) :=
  ⟨by norm_num, by norm_num,
    coverage_percentage_spec _ 100 100 (by norm_num) (by norm_num) (by norm_num)⟩

/-! ### The 100m x 100m square scenario (C9) -/

/-- The spec's concrete scenario boundary: a 100m x 100m square given with a
repeated closing vertex. -/
def sq100 : List (ℚ × ℚ) := [(0, 0), (100, 0), (100, 100), (0, 100), (0, 0)]

/-- The containment convention the ray-casting test implements on the square:
a point is retained iff it lies in the half-open box `[0, 100) x [0, 100)`. -/
theorem isPointInPolygon_sq100 (x y : ℚ) :
    isPointInPolygon (x, y) sq100 =
      decide ((0 ≤ x ∧ x < 100) ∧ 0 ≤ y ∧ y < 100) := by
  have hrange : List.range 5 = [0, 1, 2, 3, 4] := rfl
  simp only [isPointInPolygon, sq100, List.length_cons, List.length_nil]
  norm_num [hrange]
  have hA : x < 0 → x < 100 := fun h => h.trans (by norm_num)
  have hB : y < 0 → y < 100 := fun h => h.trans (by norm_num)
  have hC : (0 ≤ x) ↔ ¬(x < 0) := not_lt.symm
  have hD : (0 ≤ y) ↔ ¬(y < 0) := not_lt.symm
  by_cases h1 : x < 0 <;> by_cases h2 : x < 100 <;>
    by_cases h3 : y < 0 <;> by_cases h4 : y < 100 <;>
      first
        | exact absurd (hA h1) h2
        | exact absurd (hB h3) h4
        | simp [h1, h2, h3, h4, hC, hD]

theorem gridSteps_0_100 : gridSteps 0 100 1 = (List.range 101).map (Nat.cast : ℕ → ℚ) := by
  unfold gridSteps
  have h1 : ⌊((100 : ℚ) - 0) / 1⌋.toNat + 1 = 101 := by
    rw [show ⌊((100 : ℚ) - 0) / 1⌋ = 100 by norm_num]
    decide
  rw [h1]
  exact List.map_congr_left (fun a _ => by ring)

theorem length_insideGridPoints (polygon : List (ℚ × ℚ)) (mX MX mY MY rM pM : ℚ) :
    (insideGridPoints polygon mX MX mY MY rM pM).length =
      ((gridSteps mX MX rM).map (fun x =>
        (((gridSteps mY MY pM).map (fun y => (x, y))).filter
          (fun p => isPointInPolygon p polygon)).length)).sum := by
  unfold insideGridPoints
  rw [List.flatMap_def, List.length_flatten, List.map_map]
  rfl

set_option maxRecDepth 10000 in
theorem sq100_count : (insideGridPoints sq100 0 100 0 100 1 1).length = 10000 := by
  rw [length_insideGridPoints, gridSteps_0_100]
  rw [List.map_map]
  simp only [Function.comp_def, List.map_map, ← List.countP_eq_length_filter,
    List.countP_map, isPointInPolygon_sq100]
  simp only [Nat.cast_nonneg, Nat.cast_lt_ofNat, true_and]
  decide

theorem sq100_minX : minXOf sq100 = 0 := by norm_num [minXOf, sq100, min_def]
theorem sq100_maxX : maxXOf sq100 = 100 := by norm_num [maxXOf, sq100, max_def]
theorem sq100_minY : minYOf sq100 = 0 := by norm_num [minYOf, sq100, min_def]
theorem sq100_maxY : maxYOf sq100 = 100 := by norm_num [maxYOf, sq100, max_def]

/-- C9: for the 100m x 100m square boundary with 100 cm spacing in both
directions, `generate_grid` retains exactly 10000 grid points: the
ray-casting test includes the left/bottom edges of the square and excludes
the right/top edges, so the contained lattice points are
`{0, ..., 99} x {0, ..., 99}` (the exclusive convention's count). -/
theorem sq100_total_plants : (generate_grid sq100 100 100).total_plants = 10000 := by
  rw [generate_grid_of_le _ _ _ (by norm_num [sq100])]
  show (layoutPlants sq100 100 100).length = 10000
  unfold layoutPlants
  rw [List.length_mapIdx]
  rw [sq100_minX, sq100_maxX, sq100_minY, sq100_maxY, show (100 : ℚ) / 100 = 1 by norm_num]
  exact sq100_count


/-! ## Spacing optimizer (`optimization.py`), embedded over `ℝ`

The pseudorandom sources are modelled as explicit choice streams:
`random.uniform` draws for the initial population, the indices chosen by
`random.sample(population, 3)` in each tournament, the `random.random() < 0.8`
crossover decision per pair, and the optional `np.random.normal` noise per
offspring.  The index-triple model allows repeated indices where
`random.sample` draws distinct ones; every invariant below is proved for all
streams, hence in particular for the ones the library can produce.  Since the
individuals are length-2 arrays, `random.randint(1, len(p1) - 1)` always
returns 1, so single-point crossover always splits after the first gene. -/

/-- A candidate solution: `[row_spacing, plant_spacing]` in meters. -/
abbrev Individual : Type := ℝ × ℝ

/-- `_fitness`: penalize spacing below the agronomic minimum with the large
negative sentinel, otherwise reward plant count scaled by a Gaussian
preference centered on (0.75 m, 0.6 m) and by the soil score. -/
noncomputable def fitness (individual : Individual) (area_m2 soil_score : ℝ) : ℝ :=
  let row := individual.1
  let plant := individual.2
  if row < 0.5 ∨ plant < 0.4 then -1000
  else
    let plants_per_m2 := 1 / (row * plant)
    let total_plants := plants_per_m2 * area_m2
    let spacing_efficiency := Real.exp (-((row - 0.75) ^ 2 + (plant - 0.6) ^ 2) / 0.1)
    total_plants * spacing_efficiency * soil_score

/-- The random draws consumed by one call of `_evolve`. -/
structure EvolveRand where
  tour : ℕ → ℕ × ℕ × ℕ
  cross : ℕ → Bool
  noise : ℕ → Option (ℝ × ℝ)

/-- The random draws consumed by one call of `optimize`: the
`random.uniform` pair for each initial individual, and one `EvolveRand`
per generation. -/
structure OptRand where
  init : ℕ → Individual
  evo : ℕ → EvolveRand

/-- `_initialize_population(size)`: one uniform draw pair per individual. -/
noncomputable def initializePopulation (r : OptRand) (size : ℕ) : List Individual :=
  (List.range size).map r.init

/-- `np.argmax` over the three tournament fitnesses, returning the first
maximizer among `a`, `b`, `c`. -/
noncomputable def argmax3 (f : Individual → ℝ) (a b c : Individual) : Individual :=
  if f b ≤ f a ∧ f c ≤ f a then a
  else if f c ≤ f b then b
  else c

/-- The tournament-selection loop of `_evolve`: one tournament per slot,
keeping the fittest of the three sampled members. -/
noncomputable def tournamentSelect (r : EvolveRand) (area_m2 soil_score : ℝ)
    (population : List Individual) : List Individual :=
  (List.range population.length).map (fun k =>
    let t := r.tour k
    argmax3 (fun ind => fitness ind area_m2 soil_score)
      (population.getD (t.1 % population.length) (0, 0))
      (population.getD (t.2.1 % population.length) (0, 0))
      (population.getD (t.2.2 % population.length) (0, 0)))

/-- The crossover loop of `_evolve` over pairs `(selected[i], selected[i+1])`
for `i = 0, 2, 4, ...`: with the pair's crossover decision set, single-point
crossover at point 1 swaps the second genes; otherwise both parents are
copied.  An unpaired trailing parent is dropped. -/
def crossoverPairs (cross : ℕ → Bool) : ℕ → List Individual → List Individual
  | _, [] => []
  | _, [_] => []
  | i, p1 :: p2 :: rest =>
    (if cross i then [(p1.1, p2.2), (p2.1, p1.2)] else [p1, p2]) ++
      crossoverPairs cross (i + 2) rest

/-- The mutation loop of `_evolve`: offspring whose mutation draw fired get
Gaussian noise added and are clamped back into `[0.5, 1.2] × [0.4, 1.0]`. -/
def mutate (noise : ℕ → Option (ℝ × ℝ)) (offspring : List Individual) : List Individual :=
  offspring.mapIdx (fun i ind =>
    match noise i with
    | none => ind
    | some d => (max 0.5 (min 1.2 (ind.1 + d.1)), max 0.4 (min 1.0 (ind.2 + d.2))))

/-- `_evolve`: selection, crossover, mutation.  `random.sample(population, 3)`
raises `ValueError` when the population has 1 or 2 members (the selection loop
does not run at all on an empty population), modelled as `none`. -/
noncomputable def evolve (r : EvolveRand) (area_m2 soil_score : ℝ)
    (population : List Individual) : Option (List Individual) :=
  if population.length = 0 then some []
  else if population.length < 3 then none
  else some (mutate r.noise
    (crossoverPairs r.cross 0 (tournamentSelect r area_m2 soil_score population)))

/-- The loop state of `optimize`: the tracked best-ever `(solution, fitness)`
pair (`none` encodes `best_solution = None`, `best_fitness = -inf`) and the
current population. -/
structure OptState where
  best : Option (Individual × ℝ)
  population : List Individual

/-- One step of the inner loop of a generation: the strict-improvement update
`if fitness > best_fitness: best_fitness, best_solution = fitness, individual`.
A real fitness always beats the initial `-inf` (the `none` case). -/
noncomputable def betterOf (area_m2 soil_score : ℝ) (b : Option (Individual × ℝ))
    (ind : Individual) : Option (Individual × ℝ) :=
  let f := fitness ind area_m2 soil_score
  match b with
  | none => some (ind, f)
  | some (s, bf) => if bf < f then some (ind, f) else some (s, bf)

/-- The inner loop of one generation: fold the strict-improvement update over
the population. -/
noncomputable def trackBest (area_m2 soil_score : ℝ) (best : Option (Individual × ℝ))
    (population : List Individual) : Option (Individual × ℝ) :=
  population.foldl (betterOf area_m2 soil_score) best

/-- One generation of `optimize`: track the best over the current population,
then evolve it. -/
noncomputable def optStep (r : OptRand) (area_m2 soil_score : ℝ) (g : ℕ)
    (st : OptState) : Option OptState :=
  (evolve (r.evo g) area_m2 soil_score st.population).map
    (fun pop' => ⟨trackBest area_m2 soil_score st.best st.population, pop'⟩)

/-- The state after `g` generations of `optimize`, starting from the fresh
population of 20 and `best_solution = None`. -/
noncomputable def genState (r : OptRand) (area_m2 soil_score : ℝ) : ℕ → Option OptState
  | 0 => some ⟨none, initializePopulation r 20⟩
  | g + 1 => (genState r area_m2 soil_score g).bind (optStep r area_m2 soil_score g)

/-- A tracked best-ever fitness as the extended real the code uses
(`-inf` when no candidate has been scored yet). -/
noncomputable def bestVal : Option (Individual × ℝ) → EReal
  | none => ⊥
  | some (_, bf) => (bf : EReal)

/-- The tracked best-ever fitness of a loop state. -/
noncomputable def bestFitnessValue (st : OptState) : EReal :=
  bestVal st.best

/-- The dictionary returned by `optimize`. -/
structure OptimizationResult where
  optimized_row_spacing_m : ℝ
  optimized_plant_spacing_m : ℝ
  fitness_score : ℝ
  generations : ℕ

/-- The return path of `optimize`: fall back to the fixed default spacing (and
its directly computed fitness) when no best solution was ever recorded, then
round the spacings to 3 decimals and the fitness to 4. -/
noncomputable def finalizeResult (area_m2 soil_score : ℝ) (st : OptState) :
    OptimizationResult :=
  match st.best with
  | none =>
      { optimized_row_spacing_m := pyRound 3 (0.75 : ℝ)
        optimized_plant_spacing_m := pyRound 3 (0.6 : ℝ)
        fitness_score := pyRound 4 (fitness (0.75, 0.6) area_m2 soil_score)
        generations := 30 }
  | some (sol, bf) =>
      { optimized_row_spacing_m := pyRound 3 sol.1
        optimized_plant_spacing_m := pyRound 3 sol.2
        fitness_score := pyRound 4 bf
        generations := 30 }

/-- `PlantingOptimizer.optimize`: 30 generations over a population of 20. -/
noncomputable def optimize (r : OptRand) (area_m2 soil_score : ℝ) :
    Option OptimizationResult :=
  (genState r area_m2 soil_score 30).map (finalizeResult area_m2 soil_score)

/-- Fixed choice streams, used to instantiate theorems at concrete inputs. -/
def constEvolveRand : EvolveRand :=
  { tour := fun _ => (0, 1, 2), cross := fun _ => false, noise := fun _ => none }

/-- A fixed `optimize` choice stream whose uniform draws are the ideal pair. -/
noncomputable def constOptRand : OptRand :=
  { init := fun _ => (0.75, 0.6), evo := fun _ => constEvolveRand }

/-! ### Optimizer theorems -/

/-- C3: the fitness function returns the sentinel -1000 when the row spacing
is below 0.5 or the plant spacing below 0.4, and otherwise
`(1/(row*plant)) * area * exp(-((row-0.75)^2 + (plant-0.6)^2)/0.1) * soil_score`. -/
theorem fitness_spec (row plant area_m2 soil_score : ℝ) :
    fitness (row, plant) area_m2 soil_score =
      if row < 0.5 ∨ plant < 0.4 then -1000
      else 1 / (row * plant) * area_m2 *
        Real.exp (-((row - 0.75) ^ 2 + (plant - 0.6) ^ 2) / 0.1) * soil_score := by
  unfold fitness
  dsimp only

theorem crossoverPairs_length (cross : ℕ → Bool) :
    ∀ (l : List Individual) (i : ℕ), l.length % 2 = 0 →
      (crossoverPairs cross i l).length = l.length
  | [], _, _ => by simp [crossoverPairs]
  | [_], _, h => by simp at h
  | p1 :: p2 :: rest, i, h => by
    have hr : rest.length % 2 = 0 := by
      simp only [List.length_cons] at h
      omega
    have ih := crossoverPairs_length cross rest (i + 2) hr
    simp only [crossoverPairs, List.length_append, List.length_cons, ih]
    split_ifs <;> simp <;> omega

theorem mutate_length (noise : ℕ → Option (ℝ × ℝ)) (l : List Individual) :
    (mutate noise l).length = l.length := by
  unfold mutate
  exact List.length_mapIdx

theorem tournamentSelect_length (r : EvolveRand) (area_m2 soil_score : ℝ)
    (population : List Individual) :
    (tournamentSelect r area_m2 soil_score population).length = population.length := by
  unfold tournamentSelect
  simp

theorem evolve_some_of_even (r : EvolveRand) (area_m2 soil_score : ℝ)
    (population : List Individual) (heven : population.length % 2 = 0)
    (hne2 : population.length ≠ 2) :
    ∃ population', evolve r area_m2 soil_score population = some population' ∧
      population'.length = population.length := by
  unfold evolve
  by_cases h0 : population.length = 0
  · rw [if_pos h0]
    exact ⟨[], rfl, by simp [h0]⟩
  · rw [if_neg h0, if_neg (by omega)]
    refine ⟨_, rfl, ?_⟩
    rw [mutate_length, crossoverPairs_length _ _ _ (by rw [tournamentSelect_length]; exact heven),
      tournamentSelect_length]

/-- The admissible agronomic bounds for a candidate. -/
def inBounds (ind : Individual) : Prop :=
  0.5 ≤ ind.1 ∧ ind.1 ≤ 1.2 ∧ 0.4 ≤ ind.2 ∧ ind.2 ≤ 1.0

theorem argmax3_mem (f : Individual → ℝ) (a b c : Individual) :
    argmax3 f a b c = a ∨ argmax3 f a b c = b ∨ argmax3 f a b c = c := by
  unfold argmax3
  split_ifs <;> tauto

theorem getD_mod_mem (l : List Individual) (m : ℕ) (h : 0 < l.length) :
    l.getD (m % l.length) (0, 0) ∈ l := by
  rw [List.getD_eq_getElem l (0, 0) (Nat.mod_lt _ h)]
  exact List.getElem_mem _

theorem tournamentSelect_mem (r : EvolveRand) (area_m2 soil_score : ℝ)
    (population : List Individual) (x : Individual)
    (hx : x ∈ tournamentSelect r area_m2 soil_score population) : x ∈ population := by
  unfold tournamentSelect at hx
  obtain ⟨k, hk, hval⟩ := List.mem_map.mp hx
  have hlen : 0 < population.length :=
    lt_of_le_of_lt (Nat.zero_le k) (List.mem_range.mp hk)
  rcases argmax3_mem (fun ind => fitness ind area_m2 soil_score)
      (population.getD ((r.tour k).1 % population.length) (0, 0))
      (population.getD ((r.tour k).2.1 % population.length) (0, 0))
      (population.getD ((r.tour k).2.2 % population.length) (0, 0)) with h | h | h <;>
    · rw [← hval, h]
      exact getD_mod_mem population _ hlen

theorem crossoverPairs_inBounds (cross : ℕ → Bool) :
    ∀ (l : List Individual) (i : ℕ), (∀ x ∈ l, inBounds x) →
      ∀ y ∈ crossoverPairs cross i l, inBounds y
  | [], _, _, y, hy => by simp [crossoverPairs] at hy
  | [a], _, _, y, hy => by simp [crossoverPairs] at hy
  | p1 :: p2 :: rest, i, hl, y, hy => by
    have h1 := hl p1 (by simp)
    have h2 := hl p2 (by simp)
    have hrest : ∀ x ∈ rest, inBounds x := fun x hx => hl x (by simp [hx])
    simp only [crossoverPairs, List.mem_append] at hy
    rcases hy with hy | hy
    · split_ifs at hy with hc
      · simp only [List.mem_cons, List.not_mem_nil, or_false] at hy
        rcases hy with rfl | rfl
        · exact ⟨h1.1, h1.2.1, h2.2.2.1, h2.2.2.2⟩
        · exact ⟨h2.1, h2.2.1, h1.2.2.1, h1.2.2.2⟩
      · simp only [List.mem_cons, List.not_mem_nil, or_false] at hy
        rcases hy with rfl | rfl
        · exact h1
        · exact h2
    · exact crossoverPairs_inBounds cross rest (i + 2) hrest y hy

theorem mutate_inBounds (noise : ℕ → Option (ℝ × ℝ)) (l : List Individual)
    (hl : ∀ x ∈ l, inBounds x) : ∀ y ∈ mutate noise l, inBounds y := by
  intro y hy
  unfold mutate at hy
  rw [List.mem_iff_getElem] at hy
  obtain ⟨i, hi, hget⟩ := hy
  rw [List.getElem_mapIdx] at hget
  have hib : i < l.length := by simpa using hi
  have hmem : l[i] ∈ l := List.getElem_mem hib
  have hb := hl _ hmem
  rcases hnoise : noise i with _ | d
  · rw [hnoise] at hget
    simp only at hget
    exact hget ▸ hb
  · rw [hnoise] at hget
    simp only at hget
    refine hget ▸ ⟨le_max_left _ _, max_le (by norm_num) (min_le_left _ _),
      le_max_left _ _, max_le (by norm_num) (min_le_left _ _)⟩

theorem evolve_inBounds (r : EvolveRand) (area_m2 soil_score : ℝ)
    (population pop' : List Individual) (hpop : ∀ x ∈ population, inBounds x)
    (hev : evolve r area_m2 soil_score population = some pop') :
    ∀ y ∈ pop', inBounds y := by
  unfold evolve at hev
  by_cases h0 : population.length = 0
  · rw [if_pos h0] at hev
    obtain rfl : ([] : List Individual) = pop' := Option.some.inj hev
    intro y hy
    simp at hy
  · by_cases h3 : population.length < 3
    · rw [if_neg h0, if_pos h3] at hev
      cases hev
    · rw [if_neg h0, if_neg h3] at hev
      obtain rfl := Option.some.inj hev
      have hsel : ∀ x ∈ tournamentSelect r area_m2 soil_score population, inBounds x :=
        fun x hx => hpop x (tournamentSelect_mem r area_m2 soil_score population x hx)
      have hcross := crossoverPairs_inBounds r.cross
        (tournamentSelect r area_m2 soil_score population) 0 hsel
      exact mutate_inBounds r.noise _ hcross

theorem betterOf_inBounds (area_m2 soil_score : ℝ) (b : Option (Individual × ℝ))
    (ind : Individual) (hind : inBounds ind)
    (hb : ∀ s f, b = some (s, f) → inBounds s) :
    ∀ s f, betterOf area_m2 soil_score b ind = some (s, f) → inBounds s := by
  intro s f h
  unfold betterOf at h
  cases b with
  | none =>
    simp only [Option.some.injEq, Prod.mk.injEq] at h
    exact h.1 ▸ hind
  | some p =>
    rcases p with ⟨s0, bf⟩
    simp only at h
    split_ifs at h with hlt
    · simp only [Option.some.injEq, Prod.mk.injEq] at h
      exact h.1 ▸ hind
    · simp only [Option.some.injEq, Prod.mk.injEq] at h
      exact h.1 ▸ hb s0 bf rfl

theorem trackBest_inBounds (area_m2 soil_score : ℝ) :
    ∀ (population : List Individual) (b : Option (Individual × ℝ)),
      (∀ x ∈ population, inBounds x) →
      (∀ s f, b = some (s, f) → inBounds s) →
      ∀ s f, trackBest area_m2 soil_score b population = some (s, f) → inBounds s
  | [], b, _, hb, s, f, h => hb s f h
  | ind :: rest, b, hpop, hb, s, f, h => by
    have hind := hpop ind (by simp)
    have hrest : ∀ x ∈ rest, inBounds x := fun x hx => hpop x (by simp [hx])
    have hstep := betterOf_inBounds area_m2 soil_score b ind hind hb
    have h' : trackBest area_m2 soil_score (betterOf area_m2 soil_score b ind) rest =
        some (s, f) := h
    exact trackBest_inBounds area_m2 soil_score rest _ hrest hstep s f h'

theorem bestVal_le_betterOf (area_m2 soil_score : ℝ) (b : Option (Individual × ℝ))
    (ind : Individual) : bestVal b ≤ bestVal (betterOf area_m2 soil_score b ind) := by
  unfold betterOf
  cases b with
  | none => exact bot_le
  | some p =>
    rcases p with ⟨s0, bf⟩
    simp only
    split_ifs with hlt
    · exact EReal.coe_le_coe_iff.mpr hlt.le
    · exact le_refl _

theorem bestVal_le_trackBest (area_m2 soil_score : ℝ) :
    ∀ (population : List Individual) (b : Option (Individual × ℝ)),
      bestVal b ≤ bestVal (trackBest area_m2 soil_score b population)
  | [], b => le_refl _
  | ind :: rest, b => by
    have h1 := bestVal_le_betterOf area_m2 soil_score b ind
    have h2 := bestVal_le_trackBest area_m2 soil_score rest
      (betterOf area_m2 soil_score b ind)
    exact le_trans h1 h2

theorem bestFitnessValue_le_optStep (r : OptRand) (area_m2 soil_score : ℝ) (g : ℕ)
    (st st' : OptState) (h : optStep r area_m2 soil_score g st = some st') :
    bestFitnessValue st ≤ bestFitnessValue st' := by
  unfold optStep at h
  cases hev : evolve (r.evo g) area_m2 soil_score st.population with
  | none => rw [hev] at h; cases h
  | some p =>
    rw [hev] at h
    obtain rfl := Option.some.inj h
    exact bestVal_le_trackBest area_m2 soil_score st.population st.best

theorem genState_step_le (r : OptRand) (area_m2 soil_score : ℝ) (g : ℕ) (s' : OptState)
    (h : genState r area_m2 soil_score (g + 1) = some s') :
    ∃ s, genState r area_m2 soil_score g = some s ∧
      bestFitnessValue s ≤ bestFitnessValue s' := by
  rw [genState] at h
  cases hg : genState r area_m2 soil_score g with
  | none => rw [hg] at h; cases h
  | some s =>
    rw [hg] at h
    exact ⟨s, rfl, bestFitnessValue_le_optStep r area_m2 soil_score g s s' h⟩

theorem genState_le_of_add (r : OptRand) (area_m2 soil_score : ℝ) :
    ∀ (d g : ℕ) (s2 : OptState), genState r area_m2 soil_score (g + d) = some s2 →
      ∃ s1, genState r area_m2 soil_score g = some s1 ∧
        bestFitnessValue s1 ≤ bestFitnessValue s2
  | 0, g, s2, h => ⟨s2, h, le_refl _⟩
  | d + 1, g, s2, h => by
    obtain ⟨s, hs, hss⟩ := genState_step_le r area_m2 soil_score (g + d) s2 h
    obtain ⟨s1, hs1, h11⟩ := genState_le_of_add r area_m2 soil_score d g s hs
    exact ⟨s1, hs1, le_trans h11 hss⟩

/-- C4: the tracked best-ever fitness is monotonically non-decreasing across
generations, for every random stream. -/
theorem best_fitness_monotone (r : OptRand) (area_m2 soil_score : ℝ) (g1 g2 : ℕ)
    (hle : g1 ≤ g2) (s2 : OptState) (h2 : genState r area_m2 soil_score g2 = some s2) :
    ∃ s1, genState r area_m2 soil_score g1 = some s1 ∧
      bestFitnessValue s1 ≤ bestFitnessValue s2 := by
  obtain ⟨d, rfl⟩ := Nat.exists_eq_add_of_le hle
  exact genState_le_of_add r area_m2 soil_score d g1 s2 h2

/-- Witness for C4 at generations 0 ≤ 0 of the constant stream. -/
theorem best_fitness_monotone_witness :
    0 ≤ 0 ∧ ∃ s1, genState constOptRand 1 1 0 = some s1 ∧
      bestFitnessValue s1 ≤
        bestFitnessValue ⟨none, initializePopulation constOptRand 20⟩ :=
  ⟨le_refl 0, best_fitness_monotone constOptRand 1 1 0 0 (le_refl 0)
    ⟨none, initializePopulation constOptRand 20⟩ rfl⟩

theorem pyRound_scaled_intCast {α : Type} [LinearOrderedField α] [FloorRing α]
    (p : ℕ) (m : ℤ) : pyRound p ((m : α) / 10 ^ p) = (m : α) / 10 ^ p := by
  unfold pyRound
  rw [div_mul_cancel₀ _ (by positivity : (10 : α) ^ p ≠ 0), roundHalfEven_intCast]

theorem genState_spec (r : OptRand) (area_m2 soil_score : ℝ) :
    ∀ g, ∃ st, genState r area_m2 soil_score g = some st ∧ st.population.length = 20
  | 0 => ⟨⟨none, initializePopulation r 20⟩, rfl, by simp [initializePopulation]⟩
  | g + 1 => by
    obtain ⟨st, hst, hlen⟩ := genState_spec r area_m2 soil_score g
    obtain ⟨pop', hev, hlen'⟩ := evolve_some_of_even (r.evo g) area_m2 soil_score
      st.population (by omega) (by omega)
    refine ⟨⟨trackBest area_m2 soil_score st.best st.population, pop'⟩, ?_,
      show pop'.length = 20 by omega⟩
    rw [genState, hst]
    show optStep r area_m2 soil_score g st = _
    unfold optStep
    rw [hev]
    rfl

theorem genState_ok (r : OptRand) (area_m2 soil_score : ℝ)
    (hinit : ∀ i, inBounds (r.init i)) :
    ∀ g, ∃ st, genState r area_m2 soil_score g = some st ∧
      st.population.length = 20 ∧ (∀ x ∈ st.population, inBounds x) ∧
      (∀ s f, st.best = some (s, f) → inBounds s)
  | 0 => by
    refine ⟨⟨none, initializePopulation r 20⟩, rfl, by simp [initializePopulation], ?_, ?_⟩
    · intro x hx
      unfold initializePopulation at hx
      obtain ⟨i, _, rfl⟩ := List.mem_map.mp hx
      exact hinit i
    · intro s f h
      cases h
  | g + 1 => by
    obtain ⟨st, hst, hlen, hpop, hbest⟩ := genState_ok r area_m2 soil_score hinit g
    obtain ⟨pop', hev, hlen'⟩ := evolve_some_of_even (r.evo g) area_m2 soil_score
      st.population (by omega) (by omega)
    have hpop' := evolve_inBounds (r.evo g) area_m2 soil_score st.population pop' hpop hev
    have hbest' := trackBest_inBounds area_m2 soil_score st.population st.best hpop hbest
    refine ⟨⟨trackBest area_m2 soil_score st.best st.population, pop'⟩, ?_,
      show pop'.length = 20 by omega, hpop', hbest'⟩
    rw [genState, hst]
    show optStep r area_m2 soil_score g st = _
    unfold optStep
    rw [hev]
    rfl

/-- C10 amended: `_evolve` preserves the size of every even-sized population
other than size 2 (where `random.sample(population, 3)` raises), and with the
fixed initial population of 20 every generation's population has exactly 20
individuals. -/
theorem evolve_preserves_population_size :
    (∀ (r : EvolveRand) (area_m2 soil_score : ℝ) (population : List Individual),
      population.length % 2 = 0 → population.length ≠ 2 →
        ∃ population', evolve r area_m2 soil_score population = some population' ∧
          population'.length = population.length) ∧
    (∀ (r : OptRand) (area_m2 soil_score : ℝ) (g : ℕ), g ≤ 30 →
      ∃ st, genState r area_m2 soil_score g = some st ∧ st.population.length = 20) :=
  ⟨fun r a s pop he hn => evolve_some_of_even r a s pop he hn,
    fun r a s g _ => genState_spec r a s g⟩

/-- Witness for C10's amended theorem at the empty population and at
generation 0. -/
theorem evolve_preserves_population_size_witness :
    (∃ population', evolve constEvolveRand 1 1 [] = some population' ∧
      population'.length = ([] : List Individual).length) ∧
    (∃ st, genState constOptRand 1 1 0 = some st ∧ st.population.length = 20) :=
  ⟨evolve_preserves_population_size.1 constEvolveRand 1 1 [] (by norm_num) (by norm_num),
    evolve_preserves_population_size.2 constOptRand 1 1 0 (by norm_num)⟩

/-- C10 counterexample: on an even-sized population of 2 individuals,
`_evolve` does not return a same-sized population — `random.sample` of 3 from
2 members raises `ValueError` (modelled as `none`). -/
theorem evolve_size_two_none :
    evolve constEvolveRand 1 1 [(0.75, 0.6), (0.75, 0.6)] = none := by
  unfold evolve
  norm_num

/-- C8: `optimize` never raises on valid inputs, and when no candidate was
ever recorded it falls back to the fixed default pair (0.75 m, 0.60 m) with
that pair's directly computed fitness. -/
theorem optimize_never_raises_and_falls_back :
    (∀ (r : OptRand) (area_m2 soil_score : ℝ), 0 < area_m2 →
      0 ≤ soil_score → soil_score ≤ 1 →
      ∃ result, optimize r area_m2 soil_score = some result) ∧
    (∀ (area_m2 soil_score : ℝ) (st : OptState), st.best = none →
      finalizeResult area_m2 soil_score st =
        { optimized_row_spacing_m := 0.75
          optimized_plant_spacing_m := 0.6
          fitness_score := pyRound 4 (fitness (0.75, 0.6) area_m2 soil_score)
          generations := 30 }) := by
  constructor
  · intro r area_m2 soil_score _ _ _
    obtain ⟨st, hst, _⟩ := genState_spec r area_m2 soil_score 30
    refine ⟨finalizeResult area_m2 soil_score st, ?_⟩
    unfold optimize
    rw [hst]
    rfl
  · intro area_m2 soil_score st hb
    unfold finalizeResult
    rw [hb]
    have h075 : pyRound 3 (0.75 : ℝ) = 0.75 := by
      rw [show (0.75 : ℝ) = ((750 : ℤ) : ℝ) / 10 ^ 3 by norm_num,
        pyRound_scaled_intCast]
    have h06 : pyRound 3 (0.6 : ℝ) = 0.6 := by
      rw [show (0.6 : ℝ) = ((600 : ℤ) : ℝ) / 10 ^ 3 by norm_num,
        pyRound_scaled_intCast]
    simp only [h075, h06]

/-- Witness for C8 at a unit area with soil score 1/2 (and the empty state for
the fallback clause). -/
theorem optimize_never_raises_witness :
    (∃ result, optimize constOptRand 1 (1/2) = some result) ∧
    finalizeResult 1 (1/2) ⟨none, []⟩ =
      { optimized_row_spacing_m := 0.75
        optimized_plant_spacing_m := 0.6
        fitness_score := pyRound 4 (fitness (0.75, 0.6) 1 (1/2))
        generations := 30 } :=
  ⟨optimize_never_raises_and_falls_back.1 constOptRand 1 (1/2) (by norm_num)
      (by norm_num) (by norm_num),
    optimize_never_raises_and_falls_back.2 1 (1/2) ⟨none, []⟩ rfl⟩

/-- C5: for every random stream whose uniform draws respect their declared
ranges, `optimize` returns a spacing pair within the agronomic bounds:
row spacing in [0.5, 1.2] and plant spacing in [0.4, 1.0]. -/
theorem optimize_spacing_in_bounds (r : OptRand) (area_m2 soil_score : ℝ)
    (hinit : ∀ i, 0.5 ≤ (r.init i).1 ∧ (r.init i).1 ≤ 1.2 ∧
      0.4 ≤ (r.init i).2 ∧ (r.init i).2 ≤ 1.0) :
    ∃ result, optimize r area_m2 soil_score = some result ∧
      0.5 ≤ result.optimized_row_spacing_m ∧ result.optimized_row_spacing_m ≤ 1.2 ∧
      0.4 ≤ result.optimized_plant_spacing_m ∧ result.optimized_plant_spacing_m ≤ 1.0 := by
  obtain ⟨st, hst, _, _, hbest⟩ := genState_ok r area_m2 soil_score hinit 30
  refine ⟨finalizeResult area_m2 soil_score st, ?_, ?_⟩
  · unfold optimize
    rw [hst]
    rfl
  · unfold finalizeResult
    cases hb : st.best with
    | none =>
      simp only
      refine ⟨?_, ?_, ?_, ?_⟩
      · rw [show (0.5 : ℝ) = ((500 : ℤ) : ℝ) / 10 ^ 3 by norm_num]
        exact le_pyRound 3 (by norm_num)
      · rw [show (1.2 : ℝ) = ((1200 : ℤ) : ℝ) / 10 ^ 3 by norm_num]
        exact pyRound_le 3 (by norm_num)
      · rw [show (0.4 : ℝ) = ((400 : ℤ) : ℝ) / 10 ^ 3 by norm_num]
        exact le_pyRound 3 (by norm_num)
      · rw [show (1.0 : ℝ) = ((1000 : ℤ) : ℝ) / 10 ^ 3 by norm_num]
        exact pyRound_le 3 (by norm_num)
    | some p =>
      rcases p with ⟨sol, bf⟩
      obtain ⟨hr1, hr2, hp1, hp2⟩ := hbest sol bf hb
      simp only
      refine ⟨?_, ?_, ?_, ?_⟩
      · rw [show (0.5 : ℝ) = ((500 : ℤ) : ℝ) / 10 ^ 3 by norm_num] at hr1 ⊢
        exact le_pyRound 3 hr1
      · rw [show (1.2 : ℝ) = ((1200 : ℤ) : ℝ) / 10 ^ 3 by norm_num] at hr2 ⊢
        exact pyRound_le 3 hr2
      · rw [show (0.4 : ℝ) = ((400 : ℤ) : ℝ) / 10 ^ 3 by norm_num] at hp1 ⊢
        exact le_pyRound 3 hp1
      · rw [show (1.0 : ℝ) = ((1000 : ℤ) : ℝ) / 10 ^ 3 by norm_num] at hp2 ⊢
        exact pyRound_le 3 hp2

/-- Witness for C5 with the constant ideal-pair stream. -/
theorem optimize_spacing_in_bounds_witness :
    ∃ result, optimize constOptRand 1 1 = some result ∧
      0.5 ≤ result.optimized_row_spacing_m ∧ result.optimized_row_spacing_m ≤ 1.2 ∧
      0.4 ≤ result.optimized_plant_spacing_m ∧ result.optimized_plant_spacing_m ≤ 1.0 :=
  optimize_spacing_in_bounds constOptRand 1 1
    (fun i => by norm_num [constOptRand])


end AgriVision
